import Mathlib

/-!
Verification of the caching core of the mcp.run Python client
(`mcp_run/client.py`, `mcp_run/cache.py`, `mcp_run/types.py`).

The embedding models Python dictionaries as insertion-ordered association
lists over `String` keys, machine time as `Int` timestamps, byte strings as
`List Nat`, and the external collaborators (remote listing fetch, module
byte fetch, sandbox instantiation, invocation) as explicit parameters that
supply the outcome of each outbound call.
-/

set_option autoImplicit false

namespace McpRun

/-- Python `dict` with `String` keys, modelled as an insertion-ordered
association list.  CPython dictionaries preserve insertion order: updating
an existing key keeps its position, inserting a new key appends it. -/
abbrev Dict (α : Type) : Type := List (String × α)

/-- `d.get(k)`: the value stored under `k`, scanning in insertion order. -/
def dictGet {α : Type} (d : Dict α) (k : String) : Option α :=
  match d with
  | [] => none
  | (k', v) :: rest => if k' = k then some v else dictGet rest k

/-- `d[k] = v`: replace the value in place when the key is present,
otherwise append the new binding at the end. -/
def dictInsert {α : Type} (d : Dict α) (k : String) (v : α) : Dict α :=
  match d with
  | [] => [(k, v)]
  | (k', v') :: rest =>
    if k' = k then (k, v) :: rest else (k', v') :: dictInsert rest k v

/-- `d.pop(k, None)`: drop the binding of `k`.  The keys of a Python dict
are unique, so dropping every pairing of `k` coincides with `dict.pop`. -/
def dictPop {α : Type} (d : Dict α) (k : String) : Dict α :=
  match d with
  | [] => []
  | (k', v) :: rest =>
    if k' = k then dictPop rest k else (k', v) :: dictPop rest k

/-- The keys of the dictionary in insertion order. -/
def dictKeys {α : Type} (d : Dict α) : List String :=
  d.map (·.1)

theorem dictGet_insert_self {α : Type} (d : Dict α) (k : String) (v : α) :
    dictGet (dictInsert d k v) k = some v := by
  induction d with
  | nil => simp [dictInsert, dictGet]
  | cons hd tl ih =>
    by_cases h : hd.1 = k
    · simp [dictInsert, dictGet, h]
    · simp [dictInsert, dictGet, h, ih]

theorem dictGet_insert_ne {α : Type} (d : Dict α) (k k' : String) (v : α)
    (h : k ≠ k') : dictGet (dictInsert d k v) k' = dictGet d k' := by
  induction d with
  | nil => simp [dictInsert, dictGet, h]
  | cons hd tl ih =>
    by_cases h1 : hd.1 = k
    · simp [dictInsert, dictGet, h1, h]
    · simp only [dictInsert, if_neg h1]
      by_cases h2 : hd.1 = k'
      · simp [dictGet, h2]
      · simp [dictGet, h2, ih]

theorem dictGet_pop_self {α : Type} (d : Dict α) (k : String) :
    dictGet (dictPop d k) k = none := by
  induction d with
  | nil => simp [dictPop, dictGet]
  | cons hd tl ih =>
    by_cases h : hd.1 = k
    · simp [dictPop, h, ih]
    · simp [dictPop, dictGet, h, ih]

theorem dictGet_pop_ne {α : Type} (d : Dict α) (k k' : String) (h : k ≠ k') :
    dictGet (dictPop d k) k' = dictGet d k' := by
  induction d with
  | nil => simp [dictPop]
  | cons hd tl ih =>
    obtain ⟨k0, v0⟩ := hd
    by_cases h1 : k0 = k
    · subst h1
      simp [dictPop, dictGet, h, ih]
    · by_cases h2 : k0 = k'
      · simp [dictPop, dictGet, h1, h2, Ne.symm h]
      · simp [dictPop, dictGet, h1, h2, ih]

theorem dictGet_pop_of_none {α : Type} (d : Dict α) (k k' : String)
    (h : dictGet d k' = none) : dictGet (dictPop d k) k' = none := by
  by_cases hk : k = k'
  · subst hk
    exact dictGet_pop_self d k
  · rw [dictGet_pop_ne d k k' hk]
    exact h

/-! ## Data model (`mcp_run/types.py`) -/

/-- `Tool` from `types.py`: a tool definition.  The `input_schema` dict is
modelled as an opaque token, and the `servlet` back-reference (the owning
`Servlet` object) is modelled by the owning installation's name, which
breaks the object-graph cycle while keeping the owner observable. -/
structure Tool where
  name : String
  description : String
  inputSchema : String
  servletName : String
deriving DecidableEq, Repr

/-- The `settings["permissions"]` record read by `Client.plugin`:
`permissions["filesystem"]["volumes"]` and `permissions["network"]["domains"]`. -/
structure Permissions where
  volumes : List (String × String)
  domains : List String
deriving DecidableEq, Repr

/-- The `settings` dict of an installation: the permission grants plus the
`config` table passed to the instantiated module. -/
structure Settings where
  permissions : Permissions
  config : List (String × String)
deriving DecidableEq, Repr

/-- `Servlet` from `types.py`: an installed servlet.  `content` is the
lazily fetched Wasm module bytes.  The `installed` flag is the keyword
passed by `Client.list_installs` and tested by `Client.plugin`. -/
structure Servlet where
  installed : Bool
  name : String
  slug : String
  bindingId : String
  contentAddr : String
  settings : Settings
  tools : Dict Tool
  content : Option (List Nat)
deriving DecidableEq, Repr

/-- Outcome of one `Tool` comparison between a freshly fetched tool and
a cached one (always two distinct objects whose `servlet` back-references
are the two distinct servlets being compared).  The dataclass-generated
`Tool.__eq__` compares the field tuple left to right: `name`,
`description` and `input_schema` are plain data, and when they all match
the comparison reaches the `servlet` back-references, where
`Servlet.__eq__` and `Tool.__eq__` recurse through each other without
progress until CPython raises `RecursionError`.  Such a pair therefore
never compares equal: it is unequal in a leading field, or it raises. -/
def toolPyEq (a b : Tool) : Except Unit Bool :=
  if a.name = b.name ∧ a.description = b.description
      ∧ a.inputSchema = b.inputSchema then
    Except.error ()
  else
    Except.ok false

/-- Outcome of `self.tools == other.tools` between a fetched and a
cached servlet.  CPython's dict equality first compares sizes, then walks
the first dict's entries in insertion order, looks each key up in the
second dict, and compares the paired values; it stops at the first pair
that is unequal or whose comparison raises.  Because a fetched/cached
tool pair never compares equal (see `toolPyEq`), the first entry always
decides: two nonempty tool dicts are never found equal. -/
def toolsPyEq (a b : Dict Tool) : Except Unit Bool :=
  if a.length ≠ b.length then Except.ok false
  else
    match a with
    | [] => Except.ok true
    | (k, ta) :: _ =>
      match dictGet b k with
      | none => Except.ok false
      | some tb => toolPyEq ta tb

/-- `Servlet.__eq__` between a freshly fetched servlet and the cached
servlet of the same name, as executed by the `install != cached`
comparison of `Client.installs`: `self.tools == other.tools` is
evaluated first and `and` short-circuits, so a raising tools comparison
escapes as `RecursionError`, a false one yields `False`, and only the
empty-tools case goes on to compare settings, content address, binding
id, slug and name (all plain data; the cached module bytes `content` and
the `installed` flag are excluded). -/
def servletPyEq (a b : Servlet) : Except Unit Bool :=
  match toolsPyEq a.tools b.tools with
  | Except.error e => Except.error e
  | Except.ok false => Except.ok false
  | Except.ok true =>
    Except.ok (a.settings = b.settings ∧ a.contentAddr = b.contentAddr
      ∧ a.bindingId = b.bindingId ∧ a.slug = b.slug ∧ a.name = b.name)

/-! ## `Cache` (`mcp_run/cache.py`) -/

/-- `Cache[K, T]` from `cache.py`: a passive key-value store with an
optional refresh interval and the timestamp of the last update.
Timestamps and durations are modelled as integers. -/
structure Cache (α : Type) where
  items : Dict α
  duration : Option Int
  lastUpdate : Option Int
deriving DecidableEq, Repr

/-- `Cache.clear`: drop all entries and forget the last update time.
The refresh interval is kept. -/
def Cache.clear {α : Type} (c : Cache α) : Cache α :=
  { c with items := [], lastUpdate := none }

/-- `Cache.needs_refresh` from `cache.py`: no interval means never stale;
otherwise stale when never updated or when `now - last_update >= duration`. -/
def Cache.needsRefresh {α : Type} (c : Cache α) (now : Int) : Bool :=
  match c.duration with
  | none => false
  | some d =>
    match c.lastUpdate with
    | none => true
    | some lu => now - lu ≥ d

/-- C7: `needs_refresh` returns `false` whenever the interval is absent,
and with an interval set it returns `true` exactly when `last_update` is
absent or `now - last_update` is at least the interval. -/
theorem needs_refresh_spec {α : Type} (c : Cache α) (now : Int) :
    (c.duration = none → c.needsRefresh now = false)
      ∧ ∀ d : Int, c.duration = some d →
        (c.needsRefresh now = true ↔
          c.lastUpdate = none ∨ ∃ lu : Int, c.lastUpdate = some lu ∧ now - lu ≥ d) := by
  constructor
  · intro h
    simp [Cache.needsRefresh, h]
  · intro d hd
    cases hlu : c.lastUpdate with
    | none => simp [Cache.needsRefresh, hd, hlu]
    | some lu => simp [Cache.needsRefresh, hd, hlu]

/-! ## `Client.plugin` (`client.py` lines 614-671) -/

/-- CPython's implementation-defined `hash` for strings, modelled as a
fixed integer-valued function.  The client logic never depends on its
specific values, only on `str(hash(s))` being a decimal rendering of an
integer. -/
def pyHash (s : String) : Int :=
  s.data.foldl (fun a c => a * 31 + Int.ofNat c.toNat) 7

/-- CPython's `hash` on the small integers used as function pointers is
the integer itself. -/
def pyHashInt (p : Int) : Int :=
  p

/-- The `cache_name` computed by `Client.plugin`:
the name and the WASI flag joined by a dash, one `-str(hash(pointer))`
suffix per host function, the whole string then replaced by
`str(hash(cache_name))`.  A `functions=None` argument contributes no
suffix, exactly like an empty list. -/
def pluginCacheName (install : Servlet) (wasi : Bool) (functions : List Int) : String :=
  let base := install.name ++ "-" ++ (if wasi then "True" else "False")
  let full := functions.foldl (fun s f => s ++ "-" ++ toString (pyHashInt f)) base
  toString (pyHash full)

/-- The manifest handed to the `extism` instantiation capability. -/
structure Manifest where
  wasm : List (List Nat)
  allowedPaths : List (String × String)
  allowedHosts : List String
  config : List (String × String)
deriving DecidableEq, Repr

/-- The opaque executable produced by `ext.Plugin(manifest, wasi=..,
functions=..)`.  `handle` is the fresh identity the external collaborator
gave this instance; freshness is modelled by the running instantiation
counter. -/
structure ExtPlugin where
  manifest : Manifest
  wasi : Bool
  functions : List Int
  handle : Nat
deriving DecidableEq, Repr

/-- `InstalledPlugin` from `client.py`: the servlet together with its
instantiated module. -/
structure InstalledPlugin where
  install : Servlet
  plugin : ExtPlugin
deriving DecidableEq, Repr

/-- Outcome of the module-bytes HTTP fetch performed by `Client.plugin`
when `install.content` is absent.  `client.py` does not call
`raise_for_status` on this response, so any response body is accepted;
only a transport-level exception aborts the call. -/
inductive FetchOutcome where
  | raise (e : String)
  | body (bytes : List Nat)
deriving DecidableEq, Repr

/-- The exceptions that can escape `Client.plugin`. -/
inductive PlugErr where
  | notInstalled (name : String)
  | fetchRaised (e : String)
  | instantiateRaised (e : String)
deriving DecidableEq, Repr

/-- The full result of a `Client.plugin` call: the returned plugin or the
escaping exception, together with the plugin cache, the instantiation
counter and the (possibly content-mutated) servlet afterwards. -/
structure PluginResult where
  result : Except PlugErr InstalledPlugin
  pluginCache : Dict InstalledPlugin
  instCount : Nat
  install : Servlet
deriving Repr

/-- `Client.plugin`: guard on `installed`, derive the cache name, return
a cached entry when the lookup hits, otherwise fetch the module bytes if
absent, build the manifest from the installation's permission settings and
instantiate; the new plugin is stored under `install.name` (not under the
derived `cache_name`).  `fetch` and `instErr` supply the outcomes of the
two outbound collaborator calls. -/
def clientPlugin (pc : Dict InstalledPlugin) (instCount : Nat)
    (install : Servlet) (wasi : Bool) (functions : List Int)
    (wasm : List (List Nat)) (fetch : FetchOutcome)
    (instErr : Option String) : PluginResult :=
  if !install.installed then
    ⟨Except.error (PlugErr.notInstalled install.name), pc, instCount, install⟩
  else
    match dictGet pc (pluginCacheName install wasi functions) with
    | some cached => ⟨Except.ok cached, pc, instCount, install⟩
    | none =>
      match (match install.content with
             | some c => Except.ok (c, install)
             | none =>
               match fetch with
               | FetchOutcome.raise e => Except.error e
               | FetchOutcome.body bs =>
                 Except.ok (bs, { install with content := some bs })) with
      | Except.error e =>
        ⟨Except.error (PlugErr.fetchRaised e), pc, instCount, install⟩
      | Except.ok (contentBytes, install2) =>
        let perm := install2.settings.permissions
        let manifest : Manifest :=
          ⟨[contentBytes] ++ wasm, perm.volumes, perm.domains,
            install2.settings.config⟩
        match instErr with
        | some e =>
          ⟨Except.error (PlugErr.instantiateRaised e), pc, instCount, install2⟩
        | none =>
          let p : InstalledPlugin := ⟨install2, ⟨manifest, wasi, functions, instCount⟩⟩
          ⟨Except.ok p, dictInsert pc install2.name p, instCount + 1, install2⟩

/-! ## Refresh and diff (`Client.installs`, `client.py` lines 487-506) -/

/-- The added / changed / removed classification of one refresh, the
`ChangeSet` of the specification. -/
structure ChangeSet where
  added : List String
  changed : List String
  removed : List String
deriving DecidableEq, Repr

/-- Result of the first refresh loop of `Client.installs`: the two cache
contents, the visited name set, the classification so far, and whether
the `install != cached` comparison raised `RecursionError`. -/
structure VisitResult where
  installs : Dict Servlet
  plugins : Dict InstalledPlugin
  visited : List String
  added : List String
  changed : List String
  raised : Bool
deriving DecidableEq, Repr

/-- First loop of `Client.installs`: walk the fetched listing; a name
absent from the install cache is inserted (added), a present name whose
fetched servlet compares unequal to the cached one replaces it (changed)
and evicts the plugin-cache entry of that name, and an equal comparison
leaves the entry untouched; every fetched name is marked visited.  The
comparison is `servletPyEq`, so it can raise `RecursionError`: the raise
happens inside the `if` condition, before any mutation of that
iteration, and aborts the loop with the state accumulated so far. -/
def refreshVisit (listing : List Servlet) (ic : Dict Servlet)
    (pc : Dict InstalledPlugin) (visited added changed : List String) :
    VisitResult :=
  match listing with
  | [] => ⟨ic, pc, visited, added, changed, false⟩
  | i :: rest =>
    match dictGet ic i.name with
    | none =>
      refreshVisit rest (dictInsert ic i.name i) (dictPop pc i.name)
        (visited ++ [i.name]) (added ++ [i.name]) changed
    | some old =>
      match servletPyEq i old with
      | Except.error _ => ⟨ic, pc, visited, added, changed, true⟩
      | Except.ok true =>
        refreshVisit rest ic pc (visited ++ [i.name]) added changed
      | Except.ok false =>
        refreshVisit rest (dictInsert ic i.name i) (dictPop pc i.name)
          (visited ++ [i.name]) added (changed ++ [i.name])

/-- Result of the removal loop of `Client.installs`.  `raised` records
the `RuntimeError` CPython throws when the dictionary being iterated
changes size. -/
structure RemovalResult where
  installs : Dict Servlet
  plugins : Dict InstalledPlugin
  removed : List String
  raised : Bool
deriving DecidableEq, Repr

/-- Second loop of `Client.installs`:
`for install_name in self.install_cache.items:` pops every non-visited
name from both caches.  The loop iterates the live dictionary, so the
first pop shrinks it and the very next iteration step raises
`RuntimeError: dictionary changed size during iteration`; the loop
therefore removes at most the first stale key and then aborts. -/
def removalLoop (keys : List String) (visited : List String)
    (ic : Dict Servlet) (pc : Dict InstalledPlugin) : RemovalResult :=
  match keys with
  | [] => ⟨ic, pc, [], false⟩
  | k :: rest =>
    if k ∈ visited then removalLoop rest visited ic pc
    else ⟨dictPop ic k, dictPop pc k, [k], true⟩

/-- Outcome of the refresh performed by the `installs` property: normal
completion, the `RecursionError` escaping from a servlet comparison of
the visiting loop, or the `RuntimeError` escaping from the removal loop.
All carry the two caches afterwards and the classification made. -/
inductive RefreshOutcome where
  | ok (installCache : Cache Servlet) (pluginCache : Cache InstalledPlugin)
      (cs : ChangeSet)
  | recursionError (installCache : Cache Servlet)
      (pluginCache : Cache InstalledPlugin) (cs : ChangeSet)
  | runtimeError (installCache : Cache Servlet)
      (pluginCache : Cache InstalledPlugin) (cs : ChangeSet)
deriving DecidableEq, Repr

/-- The refresh executed by the `installs` property when the install
cache needs a refresh: run the visiting loop over the fetched listing
(a raising `install != cached` comparison escapes at once, before the
removal loop runs), then the removal loop over the keys of the updated
install cache, and on normal completion record `now` as the install
cache's last update time. -/
def installsRefresh (ic : Cache Servlet) (pc : Cache InstalledPlugin)
    (listing : List Servlet) (now : Int) : RefreshOutcome :=
  let v := refreshVisit listing ic.items pc.items [] [] []
  if v.raised then
    RefreshOutcome.recursionError
      ⟨v.installs, ic.duration, ic.lastUpdate⟩
      ⟨v.plugins, pc.duration, pc.lastUpdate⟩
      ⟨v.added, v.changed, []⟩
  else
    let r := removalLoop (dictKeys v.installs) v.visited v.installs v.plugins
    if r.raised then
      RefreshOutcome.runtimeError
        ⟨r.installs, ic.duration, ic.lastUpdate⟩
        ⟨r.plugins, pc.duration, pc.lastUpdate⟩
        ⟨v.added, v.changed, r.removed⟩
    else
      RefreshOutcome.ok
        ⟨r.installs, ic.duration, some now⟩
        ⟨r.plugins, pc.duration, pc.lastUpdate⟩
        ⟨v.added, v.changed, r.removed⟩

/-- The `installs` property: refresh when `needs_refresh()` says so,
otherwise return the caches untouched with an empty classification. -/
def clientInstalls (ic : Cache Servlet) (pc : Cache InstalledPlugin)
    (listing : List Servlet) (now : Int) : RefreshOutcome :=
  if ic.needsRefresh now then installsRefresh ic pc listing now
  else RefreshOutcome.ok ic pc ⟨[], [], []⟩

/-! ## Tool aggregation and lookup (`Client.tools`, `Client.tool`) -/

/-- All tools of all installs flattened in iteration order: install cache
values in insertion order, then each servlet's tools in insertion order. -/
def allTools (installs : Dict Servlet) : List Tool :=
  installs.flatMap (fun kv => kv.2.tools.map (·.2))

/-- `Client.tools`: aggregate every install's tools into one dict keyed
by `tool.name`; a later install's tool of the same name overwrites an
earlier one (last wins). -/
def clientTools (installs : Dict Servlet) : Dict Tool :=
  (allTools installs).foldl (fun d t => dictInsert d t.name t) []

/-- The inner loop of `Client.tool`: first tool of one servlet whose
`name` field matches. -/
def findToolInList (ts : Dict Tool) (name : String) : Option Tool :=
  match ts with
  | [] => none
  | (_, t) :: rest =>
    if t.name = name then some t else findToolInList rest name

/-- `Client.tool`, kept together with the servlet the returned tool
belongs to: scan the installs in insertion order and return the first
tool whose `name` matches.  The second component is the `Tool` the source
returns; the first component is the value of its `servlet` back-reference. -/
def clientToolS (installs : Dict Servlet) (name : String) :
    Option (Servlet × Tool) :=
  match installs with
  | [] => none
  | (_, s) :: rest =>
    match findToolInList s.tools name with
    | some t => some (s, t)
    | none => clientToolS rest name

/-- `Client.tool`: the `Tool` returned to the caller. -/
def clientTool (installs : Dict Servlet) (name : String) : Option Tool :=
  (clientToolS installs name).map (·.2)

/-! ## Result decoding (`InstalledPlugin.call`, `client.py` lines 27-50) -/

/-- One item of the raw structured response: the `type` tag and the
fields the two recognised branches read.  A field a branch never reads is
irrelevant to the decoded result. -/
structure WireItem where
  type : String
  text : String
  data : String
  mimeType : String
deriving DecidableEq, Repr

/-- `Content` from `types.py`: a typed content item of a call result.
`mimeType` defaults to `text/plain`, `data` holds the decoded bytes. -/
structure Content where
  type : String
  mimeType : String
  data : Option (List Nat)
deriving DecidableEq, Repr

/-- `CallResult` from `types.py`. -/
structure CallResult where
  content : List Content
deriving DecidableEq, Repr

/-- The decoding loop of `InstalledPlugin.call`, parameterised by the
collaborator codecs: `enc` is `str.encode` (UTF-8 encoding) and `b64` is
`base64.b64decode`.  A `text` item keeps the default mime type and
carries the encoded wire text; an `image` item carries the base64-decoded
wire data and the wire mime type; any other type tag is skipped. -/
def decodeContent (enc : String → List Nat) (b64 : String → List Nat) :
    List WireItem → List Content
  | [] => []
  | c :: rest =>
    if c.type = "text" then
      ⟨c.type, "text/plain", some (enc c.text)⟩ :: decodeContent enc b64 rest
    else if c.type = "image" then
      ⟨c.type, c.mimeType, some (b64 c.data)⟩ :: decodeContent enc b64 rest
    else
      decodeContent enc b64 rest

/-- `InstalledPlugin.call`: default the tool name to the installation
name, send the invocation to the module (the collaborator `invoke` maps
the dispatched tool name to the raw response content list) and decode the
response. -/
def installedPluginCall (p : InstalledPlugin) (tool : Option String)
    (enc : String → List Nat) (b64 : String → List Nat)
    (invoke : String → List WireItem) : CallResult :=
  let t := tool.getD p.install.name
  ⟨decodeContent enc b64 (invoke t)⟩

/-! ## Call dispatch (`Client.call`, `client.py` lines 673-700) -/

/-- The exceptions that can escape `Client.call` when it is given a tool
name: the `ValueError` for an unknown tool, or an exception escaping from
`Client.plugin`. -/
inductive CallErr where
  | toolNotFound (name : String)
  | plug (e : PlugErr)
deriving DecidableEq, Repr

/-- The result of a `Client.call` on a tool name, with the plugin cache
and the instantiation counter afterwards. -/
structure CallOutcome where
  result : Except CallErr CallResult
  pluginCache : Dict InstalledPlugin
  instCount : Nat
deriving Repr

/-- `Client.call` with a tool name, modelled after `self.installs` has
produced the current installation dict `installs` (the refresh itself is
`installsRefresh`): resolve the name through `Client.tool`, raise the
not-found `ValueError` when that returns `None`, otherwise instantiate
through `Client.plugin` on the tool's `servlet` back-reference and invoke
the tool. -/
def clientCall (installs : Dict Servlet) (pc : Dict InstalledPlugin)
    (instCount : Nat) (toolName : String) (wasi : Bool)
    (functions : List Int) (wasm : List (List Nat)) (fetch : FetchOutcome)
    (instErr : Option String) (enc : String → List Nat)
    (b64 : String → List Nat) (invoke : String → List WireItem) :
    CallOutcome :=
  match clientToolS installs toolName with
  | none => ⟨Except.error (CallErr.toolNotFound toolName), pc, instCount⟩
  | some (srv, t) =>
    let pr := clientPlugin pc instCount srv wasi functions wasm fetch instErr
    match pr.result with
    | Except.error e => ⟨Except.error (CallErr.plug e), pr.pluginCache, pr.instCount⟩
    | Except.ok p =>
      ⟨Except.ok (installedPluginCall p (some t.name) enc b64 invoke),
        pr.pluginCache, pr.instCount⟩

/-! ## Profile switching (`Client.set_profile`, `Client.clear_cache`) -/

/-- The client state touched by `set_profile` and `clear_cache`. -/
structure ClientState where
  profile : String
  installCache : Cache Servlet
  pluginCache : Cache InstalledPlugin
  lastInstallationsRequest : Dict String
deriving DecidableEq, Repr

/-- `Client.clear_cache`: reset the recorded `Date` headers and clear
both caches. -/
def clearCache (st : ClientState) : ClientState :=
  { st with
    lastInstallationsRequest := [],
    installCache := st.installCache.clear,
    pluginCache := st.pluginCache.clear }

/-- `Client.set_profile` on a profile slug: when the new profile differs
from the configured one, record it and clear the caches; otherwise do
nothing. -/
def setProfile (st : ClientState) (profile : String) : ClientState :=
  if profile ≠ st.profile then clearCache { st with profile := profile }
  else st

/-- Witness for C7 at a concrete cache: interval 10, last update 0,
queried at time 10. -/
theorem needs_refresh_spec_witness :
    (Cache.needsRefresh (α := Unit) ⟨[], some 10, some 0⟩ 10 = true) ∧
      ((10 : Int) - 0 ≥ 10) := by
  have h := (needs_refresh_spec (α := Unit) ⟨[], some 10, some 0⟩ 10).2 10 rfl
  exact ⟨h.mpr (Or.inr ⟨0, rfl, by decide⟩), by decide⟩

/-! ## Sample values used by concrete evaluations -/

/-- A sample tool owned by the servlet named `sname`. -/
def sampleTool (tname sname : String) : Tool :=
  ⟨tname, "a sample tool", "object-schema", sname⟩

/-- Sample settings whose permission grants carry the given tag, so two
different tags give structurally different settings. -/
def sampleSettings (tag : String) : Settings :=
  ⟨⟨[("/tmp", "/tmp")], [tag]⟩, []⟩

/-- A sample installed servlet with one tool and attached module bytes. -/
def sampleServlet (name tag : String) : Servlet :=
  ⟨true, name, "user/" ++ name, "b-" ++ name, "addr-" ++ name,
    sampleSettings tag,
    [("t-" ++ name, sampleTool ("t-" ++ name) name)], some [0, 1]⟩

/-- A sample cached plugin entry for the servlet named `x`. -/
def samplePlugin : InstalledPlugin :=
  ⟨sampleServlet "x" "a", ⟨⟨[[0, 1]], [("/tmp", "/tmp")], ["a"], []⟩, true, [], 0⟩⟩

/-! ## C8: profile switch -/

/-- C8: `set_profile` with a different profile updates the profile,
empties both caches (resetting their last-update times but keeping their
refresh intervals) and drops the recorded last-installations headers;
`set_profile` with the current profile changes nothing. -/
theorem set_profile_frame (st : ClientState) (p : String) :
    (p = st.profile → setProfile st p = st)
      ∧ (p ≠ st.profile →
          (setProfile st p).profile = p
          ∧ (setProfile st p).installCache.items = []
          ∧ (setProfile st p).installCache.lastUpdate = none
          ∧ (setProfile st p).installCache.duration = st.installCache.duration
          ∧ (setProfile st p).pluginCache.items = []
          ∧ (setProfile st p).pluginCache.lastUpdate = none
          ∧ (setProfile st p).pluginCache.duration = st.pluginCache.duration
          ∧ (setProfile st p).lastInstallationsRequest = []) := by
  constructor
  · intro h
    simp [setProfile, h]
  · intro h
    simp [setProfile, h, clearCache, Cache.clear]

/-- Witness for C8: a concrete state switched to an equal and to a
different profile. -/
theorem set_profile_frame_witness :
    (setProfile ⟨"default", ⟨[("x", sampleServlet "x" "a")], some 1, some 0⟩,
        ⟨[("x", samplePlugin)], none, none⟩, [("default", "Mon")]⟩ "default"
      = ⟨"default", ⟨[("x", sampleServlet "x" "a")], some 1, some 0⟩,
          ⟨[("x", samplePlugin)], none, none⟩, [("default", "Mon")]⟩)
    ∧ (setProfile ⟨"default", ⟨[("x", sampleServlet "x" "a")], some 1, some 0⟩,
        ⟨[("x", samplePlugin)], none, none⟩, [("default", "Mon")]⟩ "work").profile = "work"
    ∧ (setProfile ⟨"default", ⟨[("x", sampleServlet "x" "a")], some 1, some 0⟩,
        ⟨[("x", samplePlugin)], none, none⟩, [("default", "Mon")]⟩ "work").installCache.items = [] := by
  refine ⟨(set_profile_frame _ "default").1 rfl, ?_, ?_⟩
  · exact ((set_profile_frame _ "work").2 (by decide)).1
  · exact ((set_profile_frame _ "work").2 (by decide)).2.1

/-! ## C9, C10: result decoding -/

/-- The one-item decoding of the two recognised wire types.  Its value on
any other type tag is irrelevant because those items are filtered away
before it is applied. -/
def decodeKnownItem (enc b64 : String → List Nat) (c : WireItem) : Content :=
  if c.type = "text" then ⟨c.type, "text/plain", some (enc c.text)⟩
  else ⟨c.type, c.mimeType, some (b64 c.data)⟩

/-- C10: the decoding loop keeps exactly the items whose wire type is
`text` or `image`, in their original relative order, silently dropping
every other item; it is total, so an unrecognised type never raises. -/
theorem decode_drops_unknown (enc b64 : String → List Nat)
    (items : List WireItem) :
    decodeContent enc b64 items =
      (items.filter (fun c => c.type == "text" || c.type == "image")).map
        (decodeKnownItem enc b64) := by
  induction items with
  | nil => rfl
  | cons c rest ih =>
    by_cases h1 : c.type = "text"
    · simp [decodeContent, decodeKnownItem, h1, List.filter, ih]
    · by_cases h2 : c.type = "image"
      · simp [decodeContent, decodeKnownItem, h1, h2, List.filter, ih]
      · have hb1 : (c.type == "text") = false := by simp [h1]
        have hb2 : (c.type == "image") = false := by simp [h2]
        simp [decodeContent, h1, h2, hb1, hb2, List.filter, ih]

/-- C9: every item of the decoded result comes from a wire item: a text
item carries the encoded bytes of the wire `text` field with the default
mime type, and an image item carries the base64-decoding of the wire
`data` field with the wire mime type. -/
theorem decode_content_decodes (enc b64 : String → List Nat)
    (items : List WireItem) (c : Content)
    (h : c ∈ decodeContent enc b64 items) :
    (∃ w, w ∈ items ∧ w.type = "text" ∧ c.type = "text"
        ∧ c.mimeType = "text/plain" ∧ c.data = some (enc w.text))
    ∨ (∃ w, w ∈ items ∧ w.type = "image" ∧ c.type = "image"
        ∧ c.mimeType = w.mimeType ∧ c.data = some (b64 w.data)) := by
  induction items with
  | nil => simp [decodeContent] at h
  | cons w rest ih =>
    by_cases h1 : w.type = "text"
    · rw [decodeContent, if_pos h1] at h
      rcases List.mem_cons.mp h with hc | hc
      · subst hc
        exact Or.inl ⟨w, List.mem_cons_self w rest, h1, h1, rfl, rfl⟩
      · rcases ih hc with ⟨w', hw', rest'⟩ | ⟨w', hw', rest'⟩
        · exact Or.inl ⟨w', List.mem_cons_of_mem w hw', rest'⟩
        · exact Or.inr ⟨w', List.mem_cons_of_mem w hw', rest'⟩
    · by_cases h2 : w.type = "image"
      · rw [decodeContent, if_neg h1, if_pos h2] at h
        rcases List.mem_cons.mp h with hc | hc
        · subst hc
          exact Or.inr ⟨w, List.mem_cons_self w rest, h2, h2, rfl, rfl⟩
        · rcases ih hc with ⟨w', hw', rest'⟩ | ⟨w', hw', rest'⟩
          · exact Or.inl ⟨w', List.mem_cons_of_mem w hw', rest'⟩
          · exact Or.inr ⟨w', List.mem_cons_of_mem w hw', rest'⟩
      · rw [decodeContent, if_neg h1, if_neg h2] at h
        rcases ih h with ⟨w', hw', rest'⟩ | ⟨w', hw', rest'⟩
        · exact Or.inl ⟨w', List.mem_cons_of_mem w hw', rest'⟩
        · exact Or.inr ⟨w', List.mem_cons_of_mem w hw', rest'⟩

/-- Witness for C9 at a concrete two-item response decoded with concrete
codecs. -/
theorem decode_content_decodes_witness :
    (⟨"text", "text/plain", some [104, 105]⟩ : Content) ∈
        decodeContent (fun s => s.data.map Char.toNat) (fun s => [s.length])
          [⟨"text", "hi", "", ""⟩, ⟨"audio", "", "zzzz", "audio/wav"⟩]
      ∧ ((∃ w, w ∈ [(⟨"text", "hi", "", ""⟩ : WireItem), ⟨"audio", "", "zzzz", "audio/wav"⟩]
            ∧ w.type = "text" ∧ (⟨"text", "text/plain", some [104, 105]⟩ : Content).type = "text"
            ∧ (⟨"text", "text/plain", some [104, 105]⟩ : Content).mimeType = "text/plain"
            ∧ (⟨"text", "text/plain", some [104, 105]⟩ : Content).data
                = some ((fun (s : String) => s.data.map Char.toNat) w.text))
        ∨ (∃ w, w ∈ [(⟨"text", "hi", "", ""⟩ : WireItem), ⟨"audio", "", "zzzz", "audio/wav"⟩]
            ∧ w.type = "image" ∧ (⟨"text", "text/plain", some [104, 105]⟩ : Content).type = "image"
            ∧ (⟨"text", "text/plain", some [104, 105]⟩ : Content).mimeType = w.mimeType
            ∧ (⟨"text", "text/plain", some [104, 105]⟩ : Content).data
                = some ((fun (s : String) => [s.length]) w.data))) := by
  have hmem : (⟨"text", "text/plain", some [104, 105]⟩ : Content) ∈
      decodeContent (fun s => s.data.map Char.toNat) (fun s => [s.length])
        [⟨"text", "hi", "", ""⟩, ⟨"audio", "", "zzzz", "audio/wav"⟩] := by
    simp [decodeContent]
  exact ⟨hmem, decode_content_decodes _ _ _ _ hmem⟩

/-! ## C1: the removal half of the refresh diff -/

/-- C1 (failing run): with servlets `x` and `y` cached and an empty
remote listing, the refresh pops `x` from the dictionary it is iterating
and the next iteration step raises `RuntimeError`, so the refresh aborts
with `y` still cached and never classified as removed, and the last
update time is not recorded — instead of deleting both names and leaving
the install cache equal to the fetched listing. -/
theorem installs_refresh_removal_raises :
    (Cache.needsRefresh
        ⟨[("x", sampleServlet "x" "a"), ("y", sampleServlet "y" "a")], some 1, some 0⟩ 5
      = true)
    ∧ clientInstalls
        ⟨[("x", sampleServlet "x" "a"), ("y", sampleServlet "y" "a")], some 1, some 0⟩
        ⟨[("x", samplePlugin)], none, none⟩ [] 5
      = RefreshOutcome.runtimeError
          ⟨[("y", sampleServlet "y" "a")], some 1, some 0⟩
          ⟨[], none, none⟩
          ⟨[], [], ["x"]⟩ := by
  decide

/-! ## C3: the plugin cache lookup/store key mismatch -/

/-- First `Client.plugin` call of a double-call experiment on a sample
servlet whose module bytes are already attached and whose instantiation
succeeds, starting from an empty plugin cache. -/
def firstPluginCall : PluginResult :=
  clientPlugin [] 0 (sampleServlet "evaljs" "a") true [] []
    (FetchOutcome.body []) none

/-- Second, identical `Client.plugin` call, continuing from the state the
first call left behind. -/
def secondPluginCall : PluginResult :=
  clientPlugin firstPluginCall.pluginCache firstPluginCall.instCount
    (sampleServlet "evaljs" "a") true [] [] (FetchOutcome.body []) none

/-- C3 (failing run): the plugin cache is read under the derived
`str(hash(...))` key but written under the plain installation name, so
the second identical call misses the cache, instantiates the module a
second time and returns a different handle — two instantiations instead
of one shared cached handle. -/
theorem plugin_cache_never_hits :
    pluginCacheName (sampleServlet "evaljs" "a") true [] ≠ "evaljs"
      ∧ dictKeys firstPluginCall.pluginCache = ["evaljs"]
      ∧ firstPluginCall.instCount = 1
      ∧ secondPluginCall.instCount = 2
      ∧ firstPluginCall.result.toOption.map (fun p => p.plugin.handle) = some 0
      ∧ secondPluginCall.result.toOption.map (fun p => p.plugin.handle) = some 1 := by
  decide

/-! ## C2: cascade invalidation -/

/-- A removal loop that finishes without raising leaves both caches
untouched and removes nothing. -/
theorem removalLoop_no_raise (keys visited : List String) (ic : Dict Servlet)
    (pc : Dict InstalledPlugin)
    (h : (removalLoop keys visited ic pc).raised = false) :
    removalLoop keys visited ic pc = ⟨ic, pc, [], false⟩ := by
  induction keys with
  | nil => rfl
  | cons k rest ih =>
    by_cases hk : k ∈ visited
    · simp only [removalLoop, if_pos hk] at h ⊢
      exact ih h
    · simp only [removalLoop, if_neg hk] at h
      exact absurd h (by simp)

/-- Throughout the visiting loop, a name once recorded as changed stays
evicted from the plugin cache: the loop only ever pops that cache. -/
theorem refreshVisit_changed_absent (listing : List Servlet)
    (ic : Dict Servlet) (pc : Dict InstalledPlugin)
    (visited added changed : List String)
    (hinv : ∀ n, n ∈ changed → dictGet pc n = none) :
    ∀ n, n ∈ (refreshVisit listing ic pc visited added changed).changed →
      dictGet (refreshVisit listing ic pc visited added changed).plugins n = none := by
  induction listing generalizing ic pc visited added changed with
  | nil =>
    intro n hn
    simp only [refreshVisit] at hn ⊢
    exact hinv n hn
  | cons i rest ih =>
    intro n hn
    cases hget : dictGet ic i.name with
    | none =>
      simp only [refreshVisit, hget] at hn ⊢
      exact ih _ _ _ _ _
        (fun m hm => dictGet_pop_of_none _ _ _ (hinv m hm)) n hn
    | some old =>
      cases heq : servletPyEq i old with
      | error e =>
        simp only [refreshVisit, hget, heq] at hn ⊢
        exact hinv n hn
      | ok b =>
        cases b with
        | true =>
          simp only [refreshVisit, hget, heq] at hn ⊢
          exact ih _ _ _ _ _ hinv n hn
        | false =>
          simp only [refreshVisit, hget, heq] at hn ⊢
          refine ih _ _ _ _ _ (fun m hm => ?_) n hn
          rcases List.mem_append.mp hm with hm1 | hm2
          · exact dictGet_pop_of_none _ _ _ (hinv m hm1)
          · rcases List.mem_singleton.mp hm2 with rfl
            exact dictGet_pop_self _ _

/-- C2: whenever the refresh performed by the `installs` property
completes, every name it classified as changed or removed is absent from
the plugin cache afterwards — the eviction happened in the same refresh
step. -/
theorem refresh_evicts_changed_and_removed (ic : Cache Servlet)
    (pc : Cache InstalledPlugin) (listing : List Servlet) (now : Int)
    (ic2 : Cache Servlet) (pc2 : Cache InstalledPlugin) (cs : ChangeSet)
    (h : installsRefresh ic pc listing now = RefreshOutcome.ok ic2 pc2 cs) :
    ∀ n, n ∈ cs.changed ∨ n ∈ cs.removed → dictGet pc2.items n = none := by
  simp only [installsRefresh] at h
  set v := refreshVisit listing ic.items pc.items [] [] [] with hv
  set r := removalLoop (dictKeys v.installs) v.visited v.installs v.plugins with hr
  cases hvr : v.raised with
  | true =>
    rw [hvr] at h
    simp only [if_true] at h
    exact absurd h (by simp)
  | false =>
    rw [hvr] at h
    simp only [Bool.false_eq_true, if_false] at h
    cases hraised : r.raised with
    | true =>
      rw [hraised] at h
      simp only [if_true] at h
      exact absurd h (by simp)
    | false =>
      rw [hraised] at h
      simp only [Bool.false_eq_true, if_false, RefreshOutcome.ok.injEq] at h
      obtain ⟨h1, h2, h3⟩ := h
      have hro : r = ⟨v.installs, v.plugins, [], false⟩ :=
        removalLoop_no_raise _ _ _ _ hraised
      intro n hn
      rw [← h2]
      rw [← h3] at hn
      simp only [hro] at hn ⊢
      rcases hn with hn | hn
      · exact refreshVisit_changed_absent listing ic.items pc.items [] [] []
          (fun m hm => absurd hm (List.not_mem_nil m)) n hn
      · exact absurd hn (List.not_mem_nil n)

/-- A servlet named `name` exposing one tool `t-name` whose description
is `desc`, for refreshes in which a tool's own leading field changes —
the one kind of change `Servlet.__eq__` can report as a Boolean. -/
def describedServlet (name desc : String) : Servlet :=
  ⟨true, name, "user/" ++ name, "b-" ++ name, "addr-" ++ name,
    sampleSettings "a",
    [("t-" ++ name, ⟨"t-" ++ name, desc, "object-schema", name⟩)],
    some [0, 1]⟩

/-- Witness for C2: a concrete refresh in which the tool of servlet `x`
changes its description remotely, so the `install != cached` comparison
returns a Boolean without recursing into the back-references; the
refresh completes, classifies `x` as changed, and the plugin cache
afterwards holds no entry for `x`. -/
theorem refresh_evicts_changed_and_removed_witness :
    installsRefresh ⟨[("x", describedServlet "x" "old doc")], some 1, some 0⟩
        ⟨[("x", samplePlugin)], none, none⟩ [describedServlet "x" "new doc"] 5
      = RefreshOutcome.ok ⟨[("x", describedServlet "x" "new doc")], some 1, some 5⟩
          ⟨[], none, none⟩ ⟨[], ["x"], []⟩
    ∧ dictGet (⟨[], none, none⟩ : Cache InstalledPlugin).items "x" = none :=
  ⟨by decide,
    refresh_evicts_changed_and_removed
      ⟨[("x", describedServlet "x" "old doc")], some 1, some 0⟩
      ⟨[("x", samplePlugin)], none, none⟩
      [describedServlet "x" "new doc"] 5
      ⟨[("x", describedServlet "x" "new doc")], some 1, some 5⟩
      ⟨[], none, none⟩ ⟨[], ["x"], []⟩
      (by decide) "x" (Or.inl (by decide))⟩

/-! ## C4: call resolution versus tool aggregation -/

/-- One servlet's scan in `Client.tool` is the first match over that
servlet's tool values. -/
theorem findToolInList_eq_find (ts : Dict Tool) (name : String) :
    findToolInList ts name = (ts.map (·.2)).find? (fun t => t.name == name) := by
  induction ts with
  | nil => rfl
  | cons hd tl ih =>
    obtain ⟨k, t⟩ := hd
    by_cases h : t.name = name
    · rw [findToolInList, if_pos h, List.map_cons,
        List.find?_cons_of_pos _ (by simpa using h)]
    · rw [findToolInList, if_neg h, List.map_cons,
        List.find?_cons_of_neg _ (by simpa using h), ih]

/-- `Client.tool` returns the first matching tool of the flattened
listing-order tool sequence. -/
theorem clientTool_eq_find (installs : Dict Servlet) (name : String) :
    clientTool installs name = (allTools installs).find? (fun t => t.name == name) := by
  induction installs with
  | nil => rfl
  | cons hd tl ih =>
    obtain ⟨k, s⟩ := hd
    have hall : allTools ((k, s) :: tl) = s.tools.map (·.2) ++ allTools tl := by
      simp [allTools]
    rw [hall, List.find?_append]
    cases hf : findToolInList s.tools name with
    | some t =>
      have hfind := (findToolInList_eq_find s.tools name) ▸ hf
      simp only [clientTool, clientToolS, hf, hfind, Option.or]
      rfl
    | none =>
      have hfind := (findToolInList_eq_find s.tools name) ▸ hf
      simp only [clientTool, clientToolS, hf, hfind, Option.or]
      exact ih

/-- The last tool of a sequence whose `name` field matches. -/
def lastTool (name : String) : List Tool → Option Tool
  | [] => none
  | t :: ts =>
    match lastTool name ts with
    | some r => some r
    | none => if t.name = name then some t else none

/-- A fold of in-place dictionary insertions keyed by tool name realises
last-wins lookup. -/
theorem dictGet_foldl_insert (ts : List Tool) (name : String) :
    ∀ d : Dict Tool,
      dictGet (ts.foldl (fun d t => dictInsert d t.name t) d) name
        = match lastTool name ts with
          | some r => some r
          | none => dictGet d name := by
  induction ts with
  | nil => intro d; rfl
  | cons t ts ih =>
    intro d
    rw [List.foldl_cons, ih]
    cases hl : lastTool name ts with
    | some r => simp [lastTool, hl]
    | none =>
      by_cases h : t.name = name
      · rw [← h]
        simp [lastTool, hl, h, dictGet_insert_self]
      · simp [lastTool, hl, h, dictGet_insert_ne _ _ _ _ h]

/-- `Client.tools` lookup is last-wins over the flattened listing-order
tool sequence. -/
theorem dictGet_clientTools (installs : Dict Servlet) (name : String) :
    dictGet (clientTools installs) name = lastTool name (allTools installs) := by
  rw [clientTools, dictGet_foldl_insert]
  cases hl : lastTool name (allTools installs) <;> simp [dictGet]

/-- No match anywhere means no last match. -/
theorem lastTool_eq_none (l : List Tool) (name : String)
    (h : ∀ t, t ∈ l → ¬ t.name = name) : lastTool name l = none := by
  induction l with
  | nil => rfl
  | cons t ts ih =>
    have hts : lastTool name ts = none :=
      ih (fun u hu => h u (List.mem_cons_of_mem t hu))
    simp [lastTool, hts, h t (List.mem_cons_self t ts)]

/-- When at most one tool of the sequence has the queried name, the first
match and the last match coincide. -/
theorem find_eq_lastTool_of_unique (l : List Tool) (name : String)
    (h : (l.filter (fun t => t.name == name)).length ≤ 1) :
    l.find? (fun t => t.name == name) = lastTool name l := by
  induction l with
  | nil => rfl
  | cons t ts ih =>
    by_cases hp : t.name = name
    · rw [List.find?_cons_of_pos _ (by simpa using hp)]
      rw [List.filter_cons_of_pos (by simpa using hp)] at h
      have hnil : ts.filter (fun t => t.name == name) = [] :=
        List.length_eq_zero.mp (Nat.le_zero.mp (Nat.le_of_succ_le_succ h))
      have hnone : lastTool name ts = none := by
        refine lastTool_eq_none ts name (fun u hu hc => ?_)
        have : u ∈ ts.filter (fun t => t.name == name) :=
          List.mem_filter.mpr ⟨hu, by simpa using hc⟩
        rw [hnil] at this
        exact List.not_mem_nil u this
      simp [lastTool, hnone, hp]
    · rw [List.find?_cons_of_neg _ (by simpa using hp)]
      rw [List.filter_cons_of_neg (by simpa using hp)] at h
      have : lastTool name (t :: ts) = lastTool name ts := by
        cases hl : lastTool name ts <;> simp [lastTool, hl, hp]
      rw [this]
      exact ih h

/-- C4 (amended): `Client.call` resolves a name through `Client.tool`,
which scans installs in listing order and returns the first matching tool
(first wins), while `Client.tools` aggregates last-wins; the two
resolution paths agree exactly on the names carried by at most one tool
across all installs. -/
theorem call_resolution_unique_agree (installs : Dict Servlet) (name : String)
    (h : ((allTools installs).filter (fun t => t.name == name)).length ≤ 1) :
    clientTool installs name = dictGet (clientTools installs) name := by
  rw [clientTool_eq_find, dictGet_clientTools]
  exact find_eq_lastTool_of_unique _ _ h

/-- Witness for the amended C4: a single servlet exposing tool `t-x`. -/
theorem call_resolution_unique_agree_witness :
    ((allTools [("x", sampleServlet "x" "a")]).filter
        (fun t => t.name == "t-x")).length ≤ 1
      ∧ clientTool [("x", sampleServlet "x" "a")] "t-x"
        = dictGet (clientTools [("x", sampleServlet "x" "a")]) "t-x" :=
  ⟨by decide, call_resolution_unique_agree _ _ (by decide)⟩

/-- A servlet named `sname` exposing a tool called `t` with the given
description, for the name-collision experiment. -/
def dupToolServlet (sname desc : String) : Servlet :=
  ⟨true, sname, "user/" ++ sname, "b-" ++ sname, "addr-" ++ sname,
    sampleSettings "a", [("t", ⟨"t", desc, "object-schema", sname⟩)], some [0]⟩

/-- C4 (counterexample): with two installs both exposing a tool named
`t`, the `call` path (`Client.tool`) picks the tool of the FIRST install
in listing order while `Client.tools` keeps the LAST one, so the two
resolution paths return different tools owned by different installs. -/
theorem call_resolution_diverges :
    clientTool [("a", dupToolServlet "a" "first"), ("b", dupToolServlet "b" "second")] "t"
        = some ⟨"t", "first", "object-schema", "a"⟩
      ∧ dictGet (clientTools [("a", dupToolServlet "a" "first"),
            ("b", dupToolServlet "b" "second")]) "t"
        = some ⟨"t", "second", "object-schema", "b"⟩
      ∧ (clientToolS [("a", dupToolServlet "a" "first"),
            ("b", dupToolServlet "b" "second")] "t").map (fun p => p.1.name)
        = some "a"
      ∧ clientTool [("a", dupToolServlet "a" "first"), ("b", dupToolServlet "b" "second")] "t"
        ≠ dictGet (clientTools [("a", dupToolServlet "a" "first"),
            ("b", dupToolServlet "b" "second")]) "t" := by
  decide

/-! ## C5: ToolNotFound raises-iff -/

/-- A servlet's scan misses exactly when none of its tools carries the
queried name. -/
theorem findToolInList_eq_none_iff (ts : Dict Tool) (name : String) :
    findToolInList ts name = none ↔ ∀ q ∈ ts, ¬ q.2.name = name := by
  induction ts with
  | nil => simp [findToolInList]
  | cons hd tl ih =>
    obtain ⟨k, t⟩ := hd
    by_cases h : t.name = name
    · simp [findToolInList, h]
    · simp [findToolInList, h, ih]

/-- `Client.tool` misses exactly when no install exposes a tool of the
queried name. -/
theorem clientToolS_eq_none_iff (installs : Dict Servlet) (name : String) :
    clientToolS installs name = none ↔
      ∀ p ∈ installs, ∀ q ∈ p.2.tools, ¬ q.2.name = name := by
  induction installs with
  | nil => simp [clientToolS]
  | cons hd tl ih =>
    obtain ⟨k, s⟩ := hd
    cases hf : findToolInList s.tools name with
    | some t =>
      simp only [clientToolS, hf]
      constructor
      · intro h
        exact absurd h (by simp)
      · intro h
        have hnone := (findToolInList_eq_none_iff s.tools name).mpr
          (fun q hq => h (k, s) (List.mem_cons_self _ _) q hq)
        rw [hf] at hnone
        exact absurd hnone (by simp)
    | none =>
      simp only [clientToolS, hf]
      rw [ih]
      constructor
      · intro h p hp q hq
        rcases List.mem_cons.mp hp with hp1 | hp2
        · subst hp1
          exact (findToolInList_eq_none_iff s.tools name).mp hf q hq
        · exact h p hp2 q hq
      · intro h p hp q hq
        exact h p (List.mem_cons_of_mem _ hp) q hq

/-- C5: `Client.call` on a tool name raises the not-found `ValueError`
exactly when, in the resolved installation dict, no installed servlet
exposes a tool of that name; when one exists the call instead proceeds
into instantiation and invocation. -/
theorem call_tool_not_found_iff (installs : Dict Servlet)
    (pc : Dict InstalledPlugin) (instCount : Nat) (toolName : String)
    (wasi : Bool) (functions : List Int) (wasm : List (List Nat))
    (fetch : FetchOutcome) (instErr : Option String)
    (enc b64 : String → List Nat) (invoke : String → List WireItem) :
    (clientCall installs pc instCount toolName wasi functions wasm fetch
        instErr enc b64 invoke).result
      = Except.error (CallErr.toolNotFound toolName)
      ↔ ∀ p ∈ installs, ∀ q ∈ p.2.tools, ¬ q.2.name = toolName := by
  rw [← clientToolS_eq_none_iff]
  cases hts : clientToolS installs toolName with
  | none => simp [clientCall, hts]
  | some st =>
    obtain ⟨s, t⟩ := st
    simp only [clientCall, hts]
    cases hres : (clientPlugin pc instCount s wasi functions wasm fetch instErr).result with
    | error e => simp [hres]
    | ok p => simp [hres]

/-- Witness for C5: with no installs at all, the call raises the
not-found error. -/
theorem call_tool_not_found_iff_witness :
    (clientCall [] [] 0 "t" true [] [] (FetchOutcome.body []) none
        (fun s => s.data.map Char.toNat) (fun s => [s.length])
        (fun _ => [])).result
      = Except.error (CallErr.toolNotFound "t") :=
  (call_tool_not_found_iff [] [] 0 "t" true [] [] (FetchOutcome.body []) none
    (fun s => s.data.map Char.toNat) (fun s => [s.length])
    (fun _ => [])).mpr (by simp)

/-! ## C6: instantiation-failure atomicity -/

/-- C6: when `Client.plugin` fails, the plugin cache and the
instantiation counter are left exactly as they were (no partial handle is
stored); a transport error of the module-bytes fetch and an instantiation
error both escape carrying the collaborator's error unchanged. -/
theorem plugin_failure_atomic (pc : Dict InstalledPlugin) (instCount : Nat)
    (install : Servlet) (wasi : Bool) (functions : List Int)
    (wasm : List (List Nat)) (fetch : FetchOutcome) (instErr : Option String) :
    (∀ e, (clientPlugin pc instCount install wasi functions wasm fetch instErr).result
        = Except.error e →
      (clientPlugin pc instCount install wasi functions wasm fetch instErr).pluginCache = pc
        ∧ (clientPlugin pc instCount install wasi functions wasm fetch instErr).instCount
            = instCount)
    ∧ (∀ s, install.installed = true →
        dictGet pc (pluginCacheName install wasi functions) = none →
        install.content = none → fetch = FetchOutcome.raise s →
        (clientPlugin pc instCount install wasi functions wasm fetch instErr).result
          = Except.error (PlugErr.fetchRaised s))
    ∧ (∀ s, install.installed = true →
        dictGet pc (pluginCacheName install wasi functions) = none →
        instErr = some s →
        (install.content = none → ∀ e, fetch ≠ FetchOutcome.raise e) →
        (clientPlugin pc instCount install wasi functions wasm fetch instErr).result
          = Except.error (PlugErr.instantiateRaised s)) := by
  refine ⟨?_, ?_, ?_⟩
  · intro e
    cases hinst : install.installed with
    | false =>
      intro _
      simp [clientPlugin, hinst]
    | true =>
      cases hcg : dictGet pc (pluginCacheName install wasi functions) with
      | some cached =>
        intro he
        simp [clientPlugin, hinst, hcg] at he
      | none =>
        cases hc : install.content with
        | some c =>
          cases instErr with
          | some s =>
            intro _
            simp [clientPlugin, hinst, hcg, hc]
          | none =>
            intro he
            simp [clientPlugin, hinst, hcg, hc] at he
        | none =>
          cases fetch with
          | raise e2 =>
            intro _
            simp [clientPlugin, hinst, hcg, hc]
          | body bs =>
            cases instErr with
            | some s =>
              intro _
              simp [clientPlugin, hinst, hcg, hc]
            | none =>
              intro he
              simp [clientPlugin, hinst, hcg, hc] at he
  · intro s hinst hcg hc hf
    subst hf
    simp [clientPlugin, hinst, hcg, hc]
  · intro s hinst hcg hie hnf
    subst hie
    cases hc : install.content with
    | some c => simp [clientPlugin, hinst, hcg, hc]
    | none =>
      cases hfetch : fetch with
      | raise e2 => exact absurd hfetch (hnf hc e2)
      | body bs => simp [clientPlugin, hinst, hcg, hc, hfetch]

/-- A sample installed servlet carrying no cached module bytes, so
`Client.plugin` must fetch them. -/
def noContentServlet : Servlet :=
  { sampleServlet "fetchy" "a" with content := none }

/-- Witness for C6: a transport failure of the module-bytes fetch escapes
as-is and leaves the empty plugin cache and the counter untouched. -/
theorem plugin_failure_atomic_witness :
    (clientPlugin [] 0 noContentServlet true [] []
        (FetchOutcome.raise "boom") none).result
      = Except.error (PlugErr.fetchRaised "boom")
    ∧ (clientPlugin [] 0 noContentServlet true [] []
        (FetchOutcome.raise "boom") none).pluginCache = []
    ∧ (clientPlugin [] 0 noContentServlet true [] []
        (FetchOutcome.raise "boom") none).instCount = 0 := by
  have h := plugin_failure_atomic [] 0 noContentServlet true [] []
    (FetchOutcome.raise "boom") none
  have hres := h.2.1 "boom" rfl rfl rfl rfl
  exact ⟨hres, (h.1 _ hres).1, (h.1 _ hres).2⟩

end McpRun
